import Mathlib

/-!
Verification development for the go-bsv-middleware repository.

The Go sources are shallowly embedded: pure functions become Lean
functions, fallible code returns `Except`, and the stateful transport is
modelled by explicit state passing.  Machine bytes are represented as
`Nat` values below 256 inside `List Nat`.  Components of the repository
whose source is not available (the `utils` payload codec, the wallet
implementation, the session manager, the external secp256k1 library) are
modelled from the specification; each such definition carries a doc
comment starting with `Modelled from the spec:`.
-/

namespace BsvAuth

/-- Decidable equality for `Except`, used to evaluate embedded functions on
concrete inputs. -/
instance {e a : Type} [DecidableEq e] [DecidableEq a] : DecidableEq (Except e a) := fun x y =>
  match x, y with
  | .ok v, .ok w =>
      if h : v = w then .isTrue (by rw [h])
      else .isFalse (by intro hc; cases hc; exact h rfl)
  | .error v, .error w =>
      if h : v = w then .isTrue (by rw [h])
      else .isFalse (by intro hc; cases hc; exact h rfl)
  | .ok _, .error _ => .isFalse (by intro hc; cases hc)
  | .error _, .ok _ => .isFalse (by intro hc; cases hc)

/-! ## Byte-level utilities -/

/-- Little-endian byte encoding of a natural number on a fixed width. -/
def leBytes : Nat → Nat → List Nat
  | 0, _ => []
  | len + 1, v => v % 256 :: leBytes len (v / 256)

/-- Modelled from the spec: `utils.WriteVarIntNum` (the `pkg/utils` codec is
not under `src/`).  Compact little-endian varint: one byte below 0xFD,
`0xFD`+u16, `0xFE`+u32, `0xFF`+i64; negative values (the `-1` sentinel) are
written as `0xFF` followed by the two's-complement signed 64-bit value. -/
def writeVarIntNum (n : Int) : List Nat :=
  if n < 0 then 255 :: leBytes 8 ((n + 2 ^ 64).toNat % 2 ^ 64)
  else if n < 253 then [n.toNat]
  else if n < 65536 then 253 :: leBytes 2 n.toNat
  else if n < 4294967296 then 254 :: leBytes 4 n.toNat
  else 255 :: leBytes 8 n.toNat

/-- UTF-8 encoding of one character. -/
def utf8Char (c : Char) : List Nat :=
  let n := c.toNat
  if n < 128 then [n]
  else if n < 2048 then [192 + n / 64, 128 + n % 64]
  else if n < 65536 then [224 + n / 4096, 128 + n / 64 % 64, 128 + n % 64]
  else [240 + n / 262144, 128 + n / 4096 % 64, 128 + n / 64 % 64, 128 + n % 64]

/-- UTF-8 bytes of a string, matching Go's `[]byte(s)` conversion. -/
def strBytes (s : String) : List Nat :=
  s.toList.foldr (fun c acc => utf8Char c ++ acc) []

/-- Go's `len(s)`: the UTF-8 byte length of a string. -/
def byteLen (s : String) : Nat := (strBytes s).length

/-! ## Base64 (Go `encoding/base64` standard encoding) -/

def b64Chars : String := "ABCDEFGHIJKLMNOPQRSTUVWXYZabcdefghijklmnopqrstuvwxyz0123456789+/"

def b64Chr (v : Nat) : Char := b64Chars.toList.getD v 'A'

def b64CharVal (c : Char) : Option Nat :=
  if 65 ≤ c.toNat ∧ c.toNat ≤ 90 then some (c.toNat - 65)
  else if 97 ≤ c.toNat ∧ c.toNat ≤ 122 then some (c.toNat - 71)
  else if 48 ≤ c.toNat ∧ c.toNat ≤ 57 then some (c.toNat + 4)
  else if c = '+' then some 62
  else if c = '/' then some 63
  else none

/-- Standard base64 encoding of a byte list, with padding. -/
def b64EncodeList : List Nat → List Char
  | [] => []
  | [a] => [b64Chr (a / 4), b64Chr (a % 4 * 16), '=', '=']
  | [a, b] => [b64Chr (a / 4), b64Chr (a % 4 * 16 + b / 16), b64Chr (b % 16 * 4), '=']
  | a :: b :: c :: rest =>
      b64Chr (a / 4) :: b64Chr (a % 4 * 16 + b / 16) ::
        b64Chr (b % 16 * 4 + c / 64) :: b64Chr (c % 64) :: b64EncodeList rest

def b64EncodeBytes (bs : List Nat) : String := String.mk (b64EncodeList bs)

/-- Base64 encoding of a string's bytes (Go `base64.StdEncoding.EncodeToString`). -/
def b64Encode (s : String) : String := b64EncodeBytes (strBytes s)

/-- Decode base64 character quantums of four, honouring `=` padding at the end
only, as Go's `base64.StdEncoding.DecodeString` does. -/
def b64DecodeGroups : List Char → Option (List Nat)
  | [] => some []
  | c1 :: c2 :: c3 :: c4 :: rest => do
      let v1 ← b64CharVal c1
      let v2 ← b64CharVal c2
      if c3 = '=' then
        if c4 = '=' ∧ rest = [] then some [v1 * 4 + v2 / 16] else none
      else do
        let v3 ← b64CharVal c3
        if c4 = '=' then
          if rest = [] then some [v1 * 4 + v2 / 16, v2 % 16 * 16 + v3 / 4] else none
        else do
          let v4 ← b64CharVal c4
          let tail ← b64DecodeGroups rest
          some ((v1 * 4 + v2 / 16) :: (v2 % 16 * 16 + v3 / 4) :: (v3 % 4 * 64 + v4) :: tail)
  | _ => none

/-- Go `base64.StdEncoding.DecodeString`; carriage returns and newlines are
ignored by the decoder. -/
def b64Decode (s : String) : Option (List Nat) :=
  b64DecodeGroups (s.toList.filter (fun c => !(c = '\r' || c = '\n')))

/-! ## Hex (Go `encoding/hex`) -/

def hexVal (c : Char) : Option Nat :=
  if 48 ≤ c.toNat ∧ c.toNat ≤ 57 then some (c.toNat - 48)
  else if 97 ≤ c.toNat ∧ c.toNat ≤ 102 then some (c.toNat - 87)
  else if 65 ≤ c.toNat ∧ c.toNat ≤ 70 then some (c.toNat - 55)
  else none

def hexDecodeList : List Char → Option (List Nat)
  | [] => some []
  | c1 :: c2 :: rest => do
      let v1 ← hexVal c1
      let v2 ← hexVal c2
      let tail ← hexDecodeList rest
      some ((v1 * 16 + v2) :: tail)
  | _ => none

/-- Go `hex.DecodeString`. -/
def hexDecode (s : String) : Option (List Nat) := hexDecodeList s.toList

def hexDigits : String := "0123456789abcdef"

/-- Go `hex.EncodeToString` (lowercase digits). -/
def hexEncode (bs : List Nat) : String :=
  String.mk (bs.foldr (fun b acc => hexDigits.toList.getD (b / 16) '0' ::
    hexDigits.toList.getD (b % 16) '0' :: acc) [])

/-- `isHex` from `transport.go`: even length and decodable. -/
def isHex (s : String) : Bool :=
  if s.length % 2 ≠ 0 then false else (hexDecode s).isSome

/-! ## Decimal formatting (Go `fmt` `%d` verb), fuel-based so that the kernel
can evaluate it -/

def decDigit (n : Nat) : Char := Char.ofNat (48 + n % 10)

def natDecChars : Nat → Nat → List Char
  | 0, _ => []
  | fuel + 1, n => if n < 10 then [decDigit n] else natDecChars fuel (n / 10) ++ [decDigit (n % 10)]

def natDecString (n : Nat) : String := String.mk (natDecChars (n + 1) n)

/-- Go `fmt.Sprintf` with the `%d` verb on an `int`. -/
def intDecString (i : Int) : String :=
  if i < 0 then "-" ++ natDecString (-i).toNat else natDecString i.toNat

/-! ## Go string helpers used by the key deriver -/

/-- Whitespace as recognised by Go's `unicode.IsSpace` (ASCII controls, space,
NEL, NBSP and the Unicode Zs category). -/
def goIsSpace (c : Char) : Bool :=
  [9, 10, 11, 12, 13, 32, 133, 160, 5760, 8192, 8193, 8194, 8195, 8196, 8197,
    8198, 8199, 8200, 8201, 8202, 8232, 8233, 8239, 8287, 12288].contains c.toNat

/-- Go `strings.TrimSpace`. -/
def goTrimSpace (s : String) : String :=
  String.mk (((s.toList.dropWhile goIsSpace).reverse.dropWhile goIsSpace).reverse)

/-- Go `strings.ToLower` restricted to the mappings that can produce
characters in the `[a-z0-9 ]` set: ASCII uppercase and the Kelvin sign. -/
def goToLowerChar (c : Char) : Char :=
  if 65 ≤ c.toNat ∧ c.toNat ≤ 90 then Char.ofNat (c.toNat + 32)
  else if c.toNat = 8490 then 'k'
  else c

def goToLower (s : String) : String := String.mk (s.toList.map goToLowerChar)

/-- Kernel-reducible list version of Go `strings.HasPrefix`. -/
def listStartsWith {α : Type} [DecidableEq α] : List α → List α → Bool
  | _, [] => true
  | [], _ :: _ => false
  | a :: s, b :: p => a = b && listStartsWith s p

/-- Go `strings.HasPrefix`. -/
def strStartsWith (s pre : String) : Bool := listStartsWith s.toList pre.toList

/-- Go `strings.HasSuffix`. -/
def strEndsWith (s suf : String) : Bool :=
  listStartsWith s.toList.reverse suf.toList.reverse

/-- One step of Go `strings.Contains(s, "  ")`: two consecutive spaces. -/
def hasDoubleSpaceL : List Char → Bool
  | [] => false
  | [_] => false
  | c1 :: c2 :: rest => (c1 = ' ' && c2 = ' ') || hasDoubleSpaceL (c2 :: rest)

def hasDoubleSpace (s : String) : Bool := hasDoubleSpaceL s.toList

def isLowerAlnumSpace (c : Char) : Bool :=
  (97 ≤ c.toNat && c.toNat ≤ 122) || (48 ≤ c.toNat && c.toNat ≤ 57) || c.toNat = 32

/-- The `regexOnlyLettersNumbersSpaces` regular expression of `types.go`,
`^[a-z0-9 ]+$`: nonempty and every character a lowercase letter, digit or
space. -/
def onlyLettersNumbersSpaces (s : String) : Bool :=
  !s.toList.isEmpty && s.toList.all isLowerAlnumSpace

/-! ## Key deriver (`KeyDeriver` of the wallet package) -/

/-- A secp256k1 public key, abstracted: the external library is out of scope,
so points are either the image of a known private scalar or parsed
compressed-point bytes. -/
inductive PubKey where
  | ofScalar (k : Nat)
  | parsed (bytes : List Nat)
deriving DecidableEq, Repr

/-- `ec.PrivateKeyFromBytes([]byte{1})`: the private scalar of the special
`anyone` key (`AnyoneKey` in the source). -/
def anyoneKeyScalar : Nat := 1

/-- The public key of a private scalar (`priv.PubKey()` in the library). -/
def pubKeyOf (k : Nat) : PubKey := .ofScalar k

structure KeyDeriver where
  rootKey : Nat
deriving DecidableEq, Repr

/-- Go `wallet.CounterpartyType` is an `int`. -/
def counterpartyUninitialized : Int := 0
def counterpartyTypeAnyone : Int := 1
def counterpartyTypeSelf : Int := 2
def counterpartyTypeOther : Int := 3

structure Counterparty where
  type : Int
  counterparty : Option PubKey
deriving DecidableEq, Repr

/-- `KeyDeriver.normalizeCounterparty` from the wallet source. -/
def normalizeCounterparty (kd : KeyDeriver) (cp : Counterparty) : Except String PubKey :=
  if cp.type = counterpartyTypeSelf then .ok (pubKeyOf kd.rootKey)
  else if cp.type = counterpartyTypeOther then
    match cp.counterparty with
    | none => .error "counterparty public key required for other"
    | some key => .ok key
  else if cp.type = counterpartyTypeAnyone then
    .ok (pubKeyOf anyoneKeyScalar)
  else if cp.type = counterpartyUninitialized then
    .error "counterparty type uninitialized"
  else .error "invalid counterparty, must be self, other, or anyone"

structure Protocol where
  securityLevel : Int
  protocol : String
deriving DecidableEq, Repr

/-- The tail of `computeInvoiceNumber` after the length checks on the
normalised protocol name (shared between the two branches of the source's
nested `if`). -/
def invoiceNameChecks (securityLevel : Int) (keyID protocolName : String) :
    Except String String :=
  if byteLen protocolName < 5 then
    .error "protocol names must be 5 characters or more"
  else if hasDoubleSpace protocolName then
    .error "protocol names cannot contain multiple consecutive spaces"
  else if !onlyLettersNumbersSpaces protocolName then
    .error "protocol names can only contain letters, numbers and spaces"
  else if strEndsWith protocolName " protocol" then
    .error "no need to end your protocol name with protocol"
  else .ok (intDecString securityLevel ++ "-" ++ protocolName ++ "-" ++ keyID)

/-- The source's `protocolName` local: trim then lowercase. -/
def normalizedName (p : Protocol) : String := goToLower (goTrimSpace p.protocol)

/-- `KeyDeriver.computeInvoiceNumber` from the wallet source.  Lengths are
UTF-8 byte lengths, as Go's `len` computes them. -/
def computeInvoiceNumber (p : Protocol) (keyID : String) : Except String String :=
  if p.securityLevel < 0 ∨ p.securityLevel > 2 then
    .error "protocol security level must be 0, 1, or 2"
  else if byteLen keyID > 800 then
    .error "key IDs must be 800 characters or less"
  else if byteLen keyID < 1 then
    .error "key IDs must be 1 character or more"
  else if byteLen (normalizedName p) > 400 then
    if strStartsWith (normalizedName p) "specific linkage revelation " then
      if byteLen (normalizedName p) > 430 then
        .error "specific linkage revelation protocol names must be 430 characters or less"
      else invoiceNameChecks p.securityLevel keyID (normalizedName p)
    else .error "protocol names must be 400 characters or less"
  else invoiceNameChecks p.securityLevel keyID (normalizedName p)

/-- The validation constraints exactly as claim C7 words them (spec side of
the refinement). -/
def invoiceConstraintsOK (p : Protocol) (keyID : String) : Bool :=
  (p.securityLevel = 0 ∨ p.securityLevel = 1 ∨ p.securityLevel = 2 : Bool)
    && (1 ≤ byteLen keyID && byteLen keyID ≤ 800)
    && (5 ≤ byteLen (normalizedName p))
    && (if strStartsWith (normalizedName p) "specific linkage revelation " then
          byteLen (normalizedName p) ≤ 430
        else byteLen (normalizedName p) ≤ 400)
    && !hasDoubleSpace (normalizedName p)
    && (normalizedName p).toList.all isLowerAlnumSpace
    && !strEndsWith (normalizedName p) " protocol"

/-- The output format claimed by C7. -/
def invoiceFormat (p : Protocol) (keyID : String) : String :=
  intDecString p.securityLevel ++ "-" ++ normalizedName p ++ "-" ++ keyID

/-! ## Data model of the HTTP auth transport (`transport.go`)

`AuthMessage` mirrors `transport.AuthMessage`.  Message types are the Go
string constants.  Certificates are abstract tokens (`String`): the
transport only marshals them to bytes and hands them to callbacks, so
their internal structure is irrelevant to the claims.  The
`RequestedCertificateSet` is likewise an abstract token. -/

/-- Modelled from the spec: `transport.AuthVersion` (the `pkg/transport`
declarations are not under `src/`); the spec fixes the version string to
`"0.1"`. -/
def AuthVersion : String := "0.1"

structure AuthMessage where
  version : String
  messageType : String
  identityKey : String
  initialNonce : String := ""
  nonce : Option String := none
  yourNonce : Option String := none
  certificates : Option (List String) := none
  requestedCertificates : Option String := none
  signature : Option (List Nat) := none
  payload : Option (List Nat) := none
deriving DecidableEq, Repr

/-- `sessionmanager.PeerSession`: pointer-valued fields become `Option`. -/
structure PeerSession where
  isAuthenticated : Bool
  sessionNonce : Option String
  peerNonce : Option String
  peerIdentityKey : Option String
  lastUpdate : Nat
deriving DecidableEq, Repr

/-- Modelled from the spec: the wallet's nonce registry (the wallet
implementation is not under `src/`).  `counter` drives fresh-nonce creation
and `issued` remembers every nonce handed out, so `verifyNonce` recognises
exactly the self-issued ones. -/
structure WalletState where
  counter : Nat
  issued : List String
deriving DecidableEq, Repr

/-- Modelled from the spec: nonces are fresh random base64 values; the model
derives the k-th nonce deterministically from the counter (three bytes,
little-endian, base64-encoded), which keeps distinct counters mapping to
distinct nonces. -/
def modelNonce (k : Nat) : String :=
  b64EncodeBytes [k % 256, k / 256 % 256, k / 65536 % 256]

/-- Modelled from the spec: `wallet.CreateNonce` returns a fresh nonce and
remembers it. -/
def createNonce (w : WalletState) : String × WalletState :=
  (modelNonce w.counter, ⟨w.counter + 1, modelNonce w.counter :: w.issued⟩)

/-- Modelled from the spec: `wallet.VerifyNonce` is true iff the nonce was
previously issued by this wallet. -/
def verifyNonce (w : WalletState) (n : String) : Bool := w.issued.contains n

/-- Modelled from the spec: the wallet's own identity key
(`wallet.GetPublicKey` with `IdentityKey: true`, rendered by `ToDERHex`), an
arbitrary fixed compressed point. -/
def serverIdentityKeyHex : String := "03" ++ String.mk (List.replicate 64 'a')

/-- Modelled from the spec: `ec.PublicKeyFromString` of the external
secp256k1 library; accepts hex encodings of 33-byte compressed points
(leading byte 2 or 3). -/
def pubKeyFromString (s : String) : Except String (List Nat) :=
  match hexDecode s with
  | none => .error "invalid public key hex"
  | some bs =>
      if bs.length = 33 ∧ (bs.headD 0 = 2 ∨ bs.headD 0 = 3) then .ok bs
      else .error "invalid public key"

/-- Modelled from the spec: a signature produced by the wallet under
`(DefaultAuthProtocol, keyID, counterparty)` over `data`.  The wallet
contract makes the signature determined by, and checkable against, exactly
these inputs, so the model records them. -/
structure SigToken where
  keyID : String
  counterparty : List Nat
  data : List Nat
deriving DecidableEq, Repr

/-- Modelled from the spec: DER serialization of a signature
(`sig.Serialize()`), an injective byte encoding of the token. -/
def sigSerialize (t : SigToken) : List Nat :=
  [(strBytes t.keyID).length] ++ strBytes t.keyID ++
    [t.counterparty.length] ++ t.counterparty ++ t.data

/-- Decode a UTF-8 byte list back to a string (ASCII fragment suffices for
key IDs, which are base64 nonces and spaces). -/
def bytesToStr (bs : List Nat) : String := String.mk (bs.map Char.ofNat)

/-- Modelled from the spec: `ec.ParseSignature` on serialized bytes. -/
def sigParse (bs : List Nat) : Except String SigToken :=
  match bs with
  | [] => .error "malformed signature"
  | n :: rest =>
      if n ≤ rest.length then
        match rest.drop n with
        | [] => .error "malformed signature"
        | m :: r2 =>
            if m ≤ r2.length then
              .ok ⟨bytesToStr (rest.take n), r2.take m, r2.drop m⟩
            else .error "malformed signature"
      else .error "malformed signature"

/-- Modelled from the spec: `wallet.VerifySignature` succeeds iff the
signature was created under the same protocol key ID and counterparty over
the same data. -/
def verifySigModel (keyID : String) (counterparty : List Nat) (data : List Nat)
    (sig : SigToken) : Bool :=
  sig = ⟨keyID, counterparty, data⟩

/-! ## Session manager (spec §4.3; `pkg/temporary/sessionmanager` is not
under `src/`) -/

/-- Modelled from the spec: `sessionManager.GetSession` accepts either index
key (peer identity key or session nonce). -/
def getSession (ss : List PeerSession) (key : String) : Option PeerSession :=
  ss.find? (fun s => s.peerIdentityKey == some key || s.sessionNonce == some key)

/-- Modelled from the spec: `sessionManager.AddSession` inserts the record. -/
def addSession (ss : List PeerSession) (s : PeerSession) : List PeerSession :=
  ss ++ [s]

/-- Modelled from the spec: `sessionManager.UpdateSession` replaces the
record, identified by its session nonce, preserving both index entries. -/
def updateSession (ss : List PeerSession) (s : PeerSession) : List PeerSession :=
  ss.map (fun t => if t.sessionNonce == s.sessionNonce then s else t)

/-! ## Transport configuration and state -/

/-- The fields of `httptransport.Transport` that carry configuration.  The
`onCertificatesReceived` callback is application code; `hasCallback` records
whether one is configured (`!= nil`), and each certificate-response step
takes as input whether the callback invoked its continuation. -/
structure Cfg where
  allowUnauthenticated : Bool
  certificateRequirements : Option String
  hasCallback : Bool
deriving DecidableEq, Repr

/-- The mutable state the transport reaches through its collaborators, plus
a logical clock standing in for `time.Now()`. -/
structure TState where
  wallet : WalletState
  sessions : List PeerSession
  clock : Nat
deriving DecidableEq, Repr

/-- `Transport.createSignature`: parse the peer identity key, then sign
`data` with the wallet under the given key ID. -/
def createSignature (identityKey keyID : String) (data : List Nat) :
    Except String (List Nat) :=
  match pubKeyFromString identityKey with
  | .error e => .error ("failed to parse identity key, " ++ e)
  | .ok key => .ok (sigSerialize ⟨keyID, key, data⟩)

/-- `Transport.createNonGeneralAuthSignature`. -/
def createNonGeneralAuthSignature (initialNonce sessionNonce identityKey : String) :
    Except String (List Nat) :=
  let combined := initialNonce ++ sessionNonce
  let base64Data := b64Encode combined
  createSignature identityKey combined (strBytes base64Data)

/-- `json.Marshal` of the certificate list: an injective byte encoding of
the abstract certificate tokens. -/
def certsBytes (cs : List String) : List Nat :=
  cs.foldr (fun c acc => (strBytes c).length :: strBytes c ++ acc) []

/-! ## The state machine (`transport.go`).  Each handler returns the
outcome together with the post-state: Go's side effects on the session
manager and wallet persist even when a later step of the same handler
fails.  A nil-pointer dereference in Go aborts the request; it is modelled
as an error outcome that leaves the state unchanged from that point. -/

/-- `Transport.handleInitialRequest`.  Note that the source rejects the
message only when the identity key AND the initial nonce are both empty,
and that the session is added before the signature is attempted. -/
def handleInitialRequest (cfg : Cfg) (st : TState) (msg : AuthMessage) :
    Except String (Option AuthMessage) × TState :=
  if msg.identityKey = "" ∧ msg.initialNonce = "" then
    (.error "missing required fields in initial request", st)
  else
    let (sessionNonce, w1) := createNonce st.wallet
    let authenticated := cfg.certificateRequirements.isNone
    let session : PeerSession :=
      { isAuthenticated := authenticated
        sessionNonce := some sessionNonce
        peerNonce := some msg.initialNonce
        peerIdentityKey := some msg.identityKey
        lastUpdate := st.clock }
    let st1 : TState :=
      { wallet := w1, sessions := addSession st.sessions session, clock := st.clock + 1 }
    match createNonGeneralAuthSignature msg.initialNonce sessionNonce msg.identityKey with
    | .error e => (.error ("failed to create signature, " ++ e), st1)
    | .ok signature =>
        let response : AuthMessage :=
          { version := AuthVersion
            messageType := "initialResponse"
            identityKey := serverIdentityKeyHex
            initialNonce := sessionNonce
            yourNonce := some msg.initialNonce
            signature := some signature
            requestedCertificates := cfg.certificateRequirements }
        (.ok (some response), st1)

/-- `Transport.handleCertificateResponse`.  The callback's continuation
decision for this request is the `cbDecision` input; when a callback is
configured and it does not fire the continuation, the handler returns
`nil, nil` without touching the session. -/
def handleCertificateResponse (cfg : Cfg) (st : TState) (msg : AuthMessage)
    (cbDecision : Bool) : Except String (Option AuthMessage) × TState :=
  match msg.yourNonce with
  | none => (.error "nil dereference of YourNonce", st)
  | some yn =>
    if !verifyNonce st.wallet yn then (.error "unable to verify nonce", st)
    else match msg.certificates with
    | none => (.error "failed to retrieve certificates", st)
    | some certs =>
      match msg.nonce with
      | none => (.error "failed to retrieve nonce", st)
      | some mn =>
        let payload := certsBytes certs
        match getSession st.sessions msg.identityKey with
        | none => (.error "no session found for identity key", st)
        | some session =>
          match session.peerIdentityKey with
          | none => (.error "failed to retrieve peer identity key", st)
          | some pik =>
            match msg.signature with
            | none => (.error "nil dereference of Signature", st)
            | some sigBytes =>
              match sigParse sigBytes with
              | .error e => (.error ("failed to parse signature, " ++ e), st)
              | .ok sigTok =>
                match pubKeyFromString pik with
                | .error e => (.error ("failed to parse identity key, " ++ e), st)
                | .ok key =>
                  if !verifySigModel (mn ++ " " ++ yn) key payload sigTok then
                    (.error "unable to verify signature", st)
                  else if cfg.hasCallback && !cbDecision then (.ok none, st)
                  else
                    let session2 :=
                      { session with isAuthenticated := true, lastUpdate := st.clock }
                    let st1 : TState :=
                      { st with
                          sessions := updateSession st.sessions session2
                          clock := st.clock + 1 }
                    let (nonce, w1) := createNonce st1.wallet
                    let st2 := { st1 with wallet := w1 }
                    match session.sessionNonce with
                    | none => (.error "nil dereference of SessionNonce", st2)
                    | some sn =>
                      match createNonGeneralAuthSignature msg.initialNonce sn msg.identityKey with
                      | .error _ => (.error "failed to create signature", st2)
                      | .ok signature =>
                          let response : AuthMessage :=
                            { version := AuthVersion
                              messageType := "certificateResponse"
                              identityKey := serverIdentityKeyHex
                              nonce := some nonce
                              yourNonce := session.peerNonce
                              signature := some signature }
                          (.ok (some response), st2)

/-- `Transport.handleGeneralRequest` (transport level). -/
def handleGeneralRequest (cfg : Cfg) (st : TState) (msg : AuthMessage) :
    Except String (Option AuthMessage) × TState :=
  match msg.yourNonce with
  | none => (.error "nil dereference of YourNonce", st)
  | some yn =>
    if !verifyNonce st.wallet yn then (.error "unable to verify nonce", st)
    else match getSession st.sessions yn with
    | none => (.error "session not found", st)
    | some session =>
      if !session.isAuthenticated && !cfg.allowUnauthenticated then
        if cfg.certificateRequirements.isSome then (.error "no certificates provided", st)
        else (.error "session not authenticated", st)
      else match msg.signature with
      | none => (.error "nil dereference of Signature", st)
      | some sigBytes =>
        match sigParse sigBytes with
        | .error e => (.error ("failed to parse signature, " ++ e), st)
        | .ok sigTok =>
          match session.peerIdentityKey with
          | none => (.error "nil dereference of PeerIdentityKey", st)
          | some pik =>
            match pubKeyFromString pik with
            | .error e => (.error ("failed to parse identity key, " ++ e), st)
            | .ok key =>
              match msg.nonce with
              | none => (.error "nil dereference of Nonce", st)
              | some mn =>
                match msg.payload with
                | none => (.error "nil dereference of Payload", st)
                | some payload =>
                  if !verifySigModel (mn ++ " " ++ yn) key payload sigTok then
                    (.error "unable to verify signature", st)
                  else
                    let session2 := { session with lastUpdate := st.clock }
                    let st1 : TState :=
                      { st with
                          sessions := updateSession st.sessions session2
                          clock := st.clock + 1 }
                    let (nonce, w1) := createNonce st1.wallet
                    let st2 := { st1 with wallet := w1 }
                    let response : AuthMessage :=
                      { version := AuthVersion
                        messageType := "general"
                        identityKey := serverIdentityKeyHex
                        nonce := some nonce
                        yourNonce := session.peerNonce }
                    (.ok (some response), st2)

/-- `Transport.handleIncomingMessage`: version gate, then dispatch on the
message type. -/
def handleIncomingMessage (cfg : Cfg) (st : TState) (msg : AuthMessage)
    (cbDecision : Bool) : Except String (Option AuthMessage) × TState :=
  if msg.version ≠ AuthVersion then (.error "unsupported version", st)
  else if msg.messageType = "initialRequest" then handleInitialRequest cfg st msg
  else if msg.messageType = "certificateResponse" then
    handleCertificateResponse cfg st msg cbDecision
  else if msg.messageType = "initialResponse" ∨ msg.messageType = "certificateRequest" then
    (.error "not implemented", st)
  else if msg.messageType = "general" then handleGeneralRequest cfg st msg
  else (.error "unsupported message type", st)

/-! ## HTTP layer (`transport.go` exported handlers and the middleware of
the auth package).  Requests carry a header list with lowercase keys (Go's
`Header.Get` is case-insensitive via canonicalisation; the model fixes the
lowercase form).  The JSON body of non-general requests appears pre-parsed
as `jsonBody` (the JSON codec is external). -/

def versionHeaderName : String := "x-bsv-auth-version"
def identityKeyHeaderName : String := "x-bsv-auth-identity-key"
def nonceHeaderName : String := "x-bsv-auth-nonce"
def yourNonceHeaderName : String := "x-bsv-auth-your-nonce"
def signatureHeaderName : String := "x-bsv-auth-signature"
def requestIDHeaderName : String := "x-bsv-auth-request-id"
def messageTypeHeaderName : String := "x-bsv-auth-message-type"

structure HttpRequest where
  method : String
  path : String
  query : String
  headers : List (String × String)
  body : List Nat
  jsonBody : Option AuthMessage := none
deriving DecidableEq, Repr

/-- Go `req.Header.Get`: first matching value, empty string when absent. -/
def headerGet (hs : List (String × String)) (k : String) : String :=
  match hs.find? (fun p => p.fst == k) with
  | some p => p.snd
  | none => ""

/-- `validateBase64` from `transport.go`. -/
def validateBase64 (input : String) : Bool := (b64Decode input).isSome

/-- `checkHeaders` from `transport.go`. -/
def checkHeaders (req : HttpRequest) : Except String Unit :=
  if headerGet req.headers versionHeaderName = "" then .error "missing version header"
  else if headerGet req.headers identityKeyHeaderName = "" then
    .error "missing identity key header"
  else if headerGet req.headers nonceHeaderName = "" then .error "missing nonce header"
  else if !validateBase64 (headerGet req.headers nonceHeaderName) then
    .error "invalid nonce header"
  else if headerGet req.headers yourNonceHeaderName = "" then
    .error "missing your nonce header"
  else if !validateBase64 (headerGet req.headers yourNonceHeaderName) then
    .error "invalid your nonce header"
  else if headerGet req.headers signatureHeaderName = "" then
    .error "missing signature header"
  else if !isHex (headerGet req.headers signatureHeaderName) then
    .error "invalid signature header"
  else .ok ()

/-- Modelled from the spec: the header filter rule of §4.4 (the
`utils.FilterAndSortHeaders` helper is not under `src/`): keep headers whose
lowercase names start with `x-bsv-auth-` except the signature and request-id
headers, plus `content-type` and `authorization`; sort by lowercase name
ascending. -/
def headerIncluded (name : String) : Bool :=
  let n := goToLower name
  (strStartsWith n "x-bsv-auth-" && !(n == signatureHeaderName) &&
    !(n == requestIDHeaderName)) || n == "content-type" || n == "authorization"

def insertHeaderSorted (h : String × String) :
    List (String × String) → List (String × String)
  | [] => [h]
  | x :: xs =>
      if h.fst ≤ x.fst then h :: x :: xs else x :: insertHeaderSorted h xs

def sortHeaders (hs : List (String × String)) : List (String × String) :=
  hs.foldr insertHeaderSorted []

def filterAndSortHeaders (hs : List (String × String)) : List (String × String) :=
  sortHeaders ((hs.filter (fun h => headerIncluded h.fst)).map
    (fun h => (goToLower h.fst, h.snd)))

/-- A varint length prefix followed by the string bytes. -/
def lenPrefixed (s : String) : List Nat :=
  writeVarIntNum (byteLen s) ++ strBytes s

/-- The `(keyLen, key, valueLen, value)` block for a header list, preceded
by the count, or the `-1` sentinel when the list is empty (spec §4.4). -/
def headerBlock (hs : List (String × String)) : List Nat :=
  if hs.isEmpty then writeVarIntNum (-1)
  else writeVarIntNum (hs.length : Int) ++
    hs.foldr (fun h acc => lenPrefixed h.fst ++ lenPrefixed h.snd ++ acc) []

/-- The body section: varint length and content, or the `-1` sentinel when
empty. -/
def bodySection (body : List Nat) : List Nat :=
  if body.length > 0 then writeVarIntNum (body.length : Int) ++ body
  else writeVarIntNum (-1)

/-- Modelled from the spec: `utils.WriteRequestData` (§4.4 request payload
layout: method, pathname, query, filtered headers, body). -/
def writeRequestData (req : HttpRequest) : List Nat :=
  lenPrefixed req.method ++ lenPrefixed req.path ++
    (if req.query = "" then writeVarIntNum (-1) else lenPrefixed req.query) ++
    headerBlock (filterAndSortHeaders req.headers) ++ bodySection req.body

/-- `buildAuthMessageFromRequest` from `transport.go`. -/
def buildAuthMessageFromRequest (req : HttpRequest) : Except String AuthMessage :=
  let requestNonce := headerGet req.headers requestIDHeaderName
  let requestNonceBytes :=
    if requestNonce ≠ "" then (b64Decode requestNonce).getD [] else []
  let payloadBytes := requestNonceBytes ++ writeRequestData req
  let base : AuthMessage :=
    { version := headerGet req.headers versionHeaderName
      messageType := "general"
      identityKey := headerGet req.headers identityKeyHeaderName
      payload := some payloadBytes
      nonce :=
        if headerGet req.headers nonceHeaderName ≠ "" then
          some (headerGet req.headers nonceHeaderName)
        else none
      yourNonce :=
        if headerGet req.headers yourNonceHeaderName ≠ "" then
          some (headerGet req.headers yourNonceHeaderName)
        else none }
  if headerGet req.headers signatureHeaderName ≠ "" then
    match hexDecode (headerGet req.headers signatureHeaderName) with
    | none => .error "error decoding signature"
    | some decodedBytes => .ok { base with signature := some decodedBytes }
  else .ok base

/-- `buildResponsePayload` from `transport.go`.  The header block is left as
a TODO in the source (`// TODO: #14 - Collect and sort headers`, with the
`utils.FilterAndSortHeaders` call commented out): `includedHeaders` is
always the empty list, so the function takes no headers parameter and the
`-1` sentinel is always written. -/
def buildResponsePayload (requestID : String) (responseStatus : Int)
    (responseBody : List Nat) : Except String (List Nat) :=
  match b64Decode requestID with
  | none => .error "failed to decode request ID"
  | some requestIDBytes =>
      let includedHeaders : List (String × String) := []
      let headerPart :=
        if includedHeaders.length > 0 then
          writeVarIntNum (includedHeaders.length : Int) ++
            includedHeaders.foldr
              (fun h acc => lenPrefixed h.fst ++ lenPrefixed h.snd ++ acc) []
        else writeVarIntNum (-1)
      .ok (requestIDBytes ++ writeVarIntNum responseStatus ++ headerPart ++
        bodySection responseBody)

/-- The response payload as the spec's §4.4 defines it (spec side of claim
C1): the filtered and sorted response headers are encoded between the
status and the body. -/
def specResponsePayload (requestID : String) (responseStatus : Int)
    (responseHeaders : List (String × String)) (responseBody : List Nat) :
    Option (List Nat) :=
  match b64Decode requestID with
  | none => none
  | some requestIDBytes =>
      some (requestIDBytes ++ writeVarIntNum responseStatus ++
        headerBlock (filterAndSortHeaders responseHeaders) ++ bodySection responseBody)

/-- `setupHeaders` from `transport.go`, as the list of header pairs set on
the response writer. -/
def setupHeaders (response : AuthMessage) (requestID : String) :
    List (String × String) :=
  [(versionHeaderName, response.version),
   (messageTypeHeaderName, response.messageType),
   (identityKeyHeaderName, response.identityKey)] ++
  (if response.messageType = "general" then [(requestIDHeaderName, requestID)] else []) ++
  (match response.nonce with
   | some n => [(nonceHeaderName, n)]
   | none => []) ++
  (match response.yourNonce with
   | some n => [(yourNonceHeaderName, n)]
   | none => []) ++
  (match response.signature with
   | some s => [(signatureHeaderName, hexEncode s)]
   | none => [])

/-- `Transport.HandleGeneralRequest`: the HTTP entry point for general
requests.  On success it returns the context values that `setupContext`
stores (identity key and request ID) and the transport's response message;
the bypass for unauthenticated traffic returns neither. -/
def HandleGeneralRequest (cfg : Cfg) (st : TState) (req : HttpRequest)
    (cbDecision : Bool) :
    Except String (Option (String × String) × Option AuthMessage) × TState :=
  let requestID := headerGet req.headers requestIDHeaderName
  if requestID = "" then
    if cfg.allowUnauthenticated then (.ok (none, none), st)
    else (.error "missing request ID", st)
  else
    match checkHeaders req with
    | .error e => (.error e, st)
    | .ok _ =>
      match buildAuthMessageFromRequest req with
      | .error e => (.error e, st)
      | .ok requestData =>
        match handleIncomingMessage cfg st requestData cbDecision with
        | (.error e, st1) => (.error e, st1)
        | (.ok response, st1) =>
            (.ok (some (requestData.identityKey, requestID), response), st1)

/-- `Transport.HandleResponse`: sign the captured response and produce the
headers to set.  Returns the outcome, the headers written, and the
post-state.  When `allowUnauthenticated` is set it returns immediately:
nothing is signed and no headers are written. -/
def HandleResponse (cfg : Cfg) (st : TState) (ctx : Option (String × String))
    (body : List Nat) (status : Int) (msg : Option AuthMessage) :
    Except String Unit × List (String × String) × TState :=
  if cfg.allowUnauthenticated then (.ok (), [], st)
  else
    match ctx with
    | none => (.error "identity key not found in context", [], st)
    | some (identityKey, requestID) =>
      match getSession st.sessions identityKey with
      | none => (.error "session not found", [], st)
      | some session =>
        match buildResponsePayload requestID status body with
        | .error e => (.error e, [], st)
        | .ok payload =>
          let (nonce, w1) := createNonce st.wallet
          let st1 := { st with wallet := w1 }
          let peerNonce := session.peerNonce.getD ""
          let signatureKey := nonce ++ " " ++ peerNonce
          match createSignature identityKey signatureKey payload with
          | .error e => (.error e, [], st1)
          | .ok signature =>
            match msg with
            | none => (.error "nil dereference of response message", [], st1)
            | some m =>
                let m2 := { m with signature := some signature }
                (.ok (), setupHeaders m2 requestID, st1)

/-- `Transport.HandleNonGeneralRequest`: parse the JSON body, dispatch, and
emit headers and JSON content for the response.  The response body is the
message itself (JSON marshalling is external); header emission uses the
request-id fallback to the message's initial nonce. -/
def HandleNonGeneralRequest (cfg : Cfg) (st : TState) (req : HttpRequest)
    (cbDecision : Bool) :
    Except String (Option (List (String × String) × AuthMessage)) × TState :=
  match req.jsonBody with
  | none => (.error "failed to decode request body", st)
  | some requestData =>
    let requestID :=
      if headerGet req.headers requestIDHeaderName = "" then requestData.initialNonce
      else headerGet req.headers requestIDHeaderName
    match handleIncomingMessage cfg st requestData cbDecision with
    | (.error e, st1) => (.error e, st1)
    | (.ok none, st1) => (.ok none, st1)
    | (.ok (some response), st1) =>
        (.ok (some (setupHeaders response requestID, response)), st1)

/-! ## Auth middleware (`Middleware.Handler` and `ResponseRecorder`) -/

/-- `ResponseRecorder`: the middleware's response writer wrapper. -/
structure ResponseRecorder where
  statusCode : Int
  body : List Nat
deriving DecidableEq, Repr

/-- `ResponseRecorder.Write`: stores the byte slice, REPLACING any previous
one rather than appending. -/
def recorderWrite (r : ResponseRecorder) (b : List Nat) : ResponseRecorder :=
  { r with body := b }

/-- `ResponseRecorder.WriteHeader`. -/
def recorderWriteHeader (r : ResponseRecorder) (code : Int) : ResponseRecorder :=
  { r with statusCode := code }

/-- The recorder state after the downstream handler set a status and issued
the given sequence of `Write` calls. -/
def recorderAfter (status : Int) (writes : List (List Nat)) : ResponseRecorder :=
  writes.foldl recorderWrite ⟨status, []⟩

/-- `Middleware.Handler` from the auth package: route on the well-known
path, otherwise run the general flow — transport, downstream handler
(modelled as a function from the enriched request to a status and its
`Write` calls), response signing, flush.  Every transport error on the
general path is surfaced with `http.StatusUnauthorized` (401); a signing
failure is surfaced with 500.  The result is the HTTP status, the flushed
body, and the post-state. -/
def middlewareHandle (cfg : Cfg) (st : TState) (req : HttpRequest) (cbDecision : Bool)
    (next : HttpRequest → Int × List (List Nat)) : Int × List Nat × TState :=
  if req.method = "POST" ∧ req.path = "/.well-known/auth" then
    match HandleNonGeneralRequest cfg st req cbDecision with
    | (.error _, st1) => (200, [], st1)
    | (.ok none, st1) => (200, [], st1)
    | (.ok (some (_, _)), st1) => (200, [], st1)
  else
    match HandleGeneralRequest cfg st req cbDecision with
    | (.error _, st1) => (401, [], st1)
    | (.ok (ctx, authMsg), st1) =>
      let (nstatus, writes) := next req
      let recorder := recorderAfter nstatus writes
      match HandleResponse cfg st1 ctx recorder.body recorder.statusCode authMsg with
      | (.error _, _, st2) => (500, [], st2)
      | (.ok _, _, st2) => (recorder.statusCode, recorder.body, st2)

/-! ## Transport operations, for stating invariants over every operation -/

inductive TOp where
  | incoming (msg : AuthMessage) (cbDecision : Bool)
  | respond (ctx : Option (String × String)) (body : List Nat) (status : Int)
      (msg : Option AuthMessage)
deriving DecidableEq, Repr

/-- Whether the operation's certificate callback invoked its continuation. -/
def TOp.callbackFired : TOp → Bool
  | .incoming _ cb => cb
  | .respond _ _ _ _ => false

/-- The state effect of one transport operation. -/
def applyOp (cfg : Cfg) (st : TState) : TOp → TState
  | .incoming msg cb => (handleIncomingMessage cfg st msg cb).2
  | .respond ctx body status msg => (HandleResponse cfg st ctx body status msg).2.2

/-- Run a sequence of transport operations. -/
def runOps (cfg : Cfg) (st : TState) (ops : List TOp) : TState :=
  ops.foldl (applyOp cfg) st

/-- Whether an inbound message is a certificate response that passes every
verification gate of `handleCertificateResponse` in the given state:
supported version, `certificateResponse` type, a present and self-issued
`yourNonce`, certificates and `nonce` present, a session stored for the
sender with a parseable peer identity key, and a signature that parses and
verifies over the marshalled certificates under
`keyID = nonce ‖ yourNonce` with that key.  This mirrors the handler's
guard chain; the session update sits strictly behind all of these gates. -/
def certResponseVerified (st : TState) (msg : AuthMessage) : Bool :=
  (msg.version == AuthVersion) && (msg.messageType == "certificateResponse") &&
  match msg.yourNonce with
  | none => false
  | some yn =>
    verifyNonce st.wallet yn &&
    match msg.certificates with
    | none => false
    | some certs =>
      match msg.nonce with
      | none => false
      | some mn =>
        match getSession st.sessions msg.identityKey with
        | none => false
        | some session =>
          match session.peerIdentityKey with
          | none => false
          | some pik =>
            match msg.signature with
            | none => false
            | some sigBytes =>
              match sigParse sigBytes with
              | .error _ => false
              | .ok sigTok =>
                match pubKeyFromString pik with
                | .error _ => false
                | .ok key =>
                    verifySigModel (mn ++ " " ++ yn) key (certsBytes certs) sigTok

/-! ## Concrete fixtures used to evaluate the embedding -/

/-- A well-formed compressed public key for the client peer. -/
def validClientKey : String := "02" ++ String.mk (List.replicate 64 'b')

/-- The bytes `pubKeyFromString` yields for `validClientKey`. -/
def validClientKeyBytes : List Nat := 2 :: List.replicate 32 187

/-- The transport state before any request. -/
def emptyTState : TState := ⟨⟨0, []⟩, [], 0⟩

/-- A transport with no certificate requirement, strict mode. -/
def cfgNoCerts : Cfg := ⟨false, none, false⟩

/-- A well-formed initial request (the client nonce `"QUFB"` is base64). -/
def sampleInitialRequest : AuthMessage :=
  { version := AuthVersion, messageType := "initialRequest",
    identityKey := validClientKey, initialNonce := "QUFB" }

/-- The payload of the sample general request. -/
def samplePayload : List Nat := strBytes "hi"

/-- A general message correctly signed for the session that
`sampleInitialRequest` creates (its session nonce is `modelNonce 0 =
"AAAA"`). -/
def sampleGeneralMsg : AuthMessage :=
  { version := AuthVersion, messageType := "general", identityKey := validClientKey,
    nonce := some "QkJC", yourNonce := some "AAAA",
    signature := some (sigSerialize ⟨"QkJC AAAA", validClientKeyBytes, samplePayload⟩),
    payload := some samplePayload }

/-- Fallback used to extract a response message from a handler outcome. -/
def extractMsg (r : Except String (Option AuthMessage)) : AuthMessage :=
  (r.toOption.bind id).getD { version := "", messageType := "", identityKey := "" }

/-- State after the sample handshake in strict no-certificate mode. -/
def stAfterHandshake : TState :=
  (handleIncomingMessage cfgNoCerts emptyTState sampleInitialRequest false).2

/-- Outcome of the sample authenticated general request. -/
def generalOutcome : Except String (Option AuthMessage) × TState :=
  handleIncomingMessage cfgNoCerts stAfterHandshake sampleGeneralMsg false

/-- The general response message the transport built for the sample
request (it carries the server nonce `modelNonce 1 = "AQAA"`). -/
def generalResponseMsg : AuthMessage := extractMsg generalOutcome.1

/-- The outcome of `HandleResponse` for the sample request: the request ID
is the client nonce `"QUFB"`, the downstream handler replied 200 `"Pong!"`. -/
def handleResponseOutcome : Except String Unit × List (String × String) × TState :=
  HandleResponse cfgNoCerts generalOutcome.2 (some (validClientKey, "QUFB"))
    (strBytes "Pong!") 200 (some generalResponseMsg)

/-- The auth headers `HandleResponse` emitted for the sample request. -/
def emittedHeaders : List (String × String) := handleResponseOutcome.2.1

/-- The key ID under which the emitted signature was created, recovered
from the signature header. -/
def emittedSignatureKeyID : Except String String :=
  (sigParse ((hexDecode (headerGet emittedHeaders signatureHeaderName)).getD [])).map
    (fun t => t.keyID)

/-- C3 fixture: an initial request whose `initialNonce` is empty but whose
`identityKey` is a valid key. -/
def emptyNonceOutcome : Except String (Option AuthMessage) × TState :=
  handleInitialRequest cfgNoCerts emptyTState
    { version := AuthVersion, messageType := "initialRequest",
      identityKey := validClientKey, initialNonce := "" }

/-- C4 fixture: certificates are required but no callback is configured. -/
def cfgCertsNoCallback : Cfg := ⟨false, some "age-verification", false⟩

/-- C4 fixture: certificates are required and a callback is configured. -/
def cfgCertsWithCallback : Cfg := ⟨false, some "age-verification", true⟩

/-- A certificate response correctly signed for the sample session. -/
def sampleCertMsg : AuthMessage :=
  { version := AuthVersion, messageType := "certificateResponse",
    identityKey := validClientKey, initialNonce := "QUFB",
    nonce := some "QkJC", yourNonce := some "AAAA",
    certificates := some ["cert1"],
    signature := some (sigSerialize ⟨"QkJC AAAA", validClientKeyBytes, certsBytes ["cert1"]⟩) }

/-- C4 fixture: state after the handshake with certificates required and
no callback configured. -/
def stCertNoCallbackHandshake : TState :=
  (handleIncomingMessage cfgCertsNoCallback emptyTState sampleInitialRequest false).2

/-- C4 fixture: state after handshake and certificate response with
certificates required and no callback configured. -/
def certNoCallbackFinal : TState :=
  (handleIncomingMessage cfgCertsNoCallback stCertNoCallbackHandshake
    sampleCertMsg false).2

/-- C4 fixture: the session record as it stands after the no-callback
certificate response authenticated it. -/
def certUpdatedSession : PeerSession :=
  ⟨true, some "AAAA", some "QUFB", some validClientKey, 1⟩

/-- C4 witness fixture: a run in which the configured callback never
invokes its continuation. -/
def certCallbackDeclinedOps : List TOp :=
  [.incoming sampleInitialRequest false, .incoming sampleCertMsg false,
   .respond (some (validClientKey, "QUFB")) (strBytes "Pong!") 200 none]

/-- C5/C6 fixture: a general request carrying a request ID but no version
header. -/
def reqMissingVersion : HttpRequest :=
  { method := "GET", path := "/ping", query := "",
    headers := [(requestIDHeaderName, "QUFBQQ==")], body := [] }

/-- C5 fixture: a downstream handler replying 200 `"Pong!"`. -/
def pongNext : HttpRequest → Int × List (List Nat) := fun _ => (200, [strBytes "Pong!"])

/-- C6 fixture: allow-unauthenticated mode, no certificate requirement. -/
def cfgAllowUnauth : Cfg := ⟨true, none, false⟩

/-- C6 fixture: state after the sample handshake in allow-unauthenticated
mode. -/
def stAllowUnauthHandshake : TState :=
  (handleIncomingMessage cfgAllowUnauth emptyTState sampleInitialRequest false).2

/-- C6 fixture: outcome of the sample general request in
allow-unauthenticated mode (the state machine still authenticates it). -/
def allowUnauthGeneralOutcome : Except String (Option AuthMessage) × TState :=
  handleIncomingMessage cfgAllowUnauth stAllowUnauthHandshake sampleGeneralMsg false

/-! ## Theorems -/

set_option maxRecDepth 20000

/-- C1: contrary to the claim, `buildResponsePayload` writes the `-1`
sentinel after the status varint for EVERY input — the filtered response
headers are never collected or encoded (the source leaves this as TODO
number 14), so the claimed header block appears in no response payload. -/
theorem buildResponsePayload_always_writes_minus_one (requestID : String)
    (status : Int) (body ridBytes : List Nat)
    (h : b64Decode requestID = some ridBytes) :
    buildResponsePayload requestID status body =
      .ok (ridBytes ++ writeVarIntNum status ++ writeVarIntNum (-1) ++
        bodySection body) := by
  unfold buildResponsePayload
  rw [h]
  simp

/-- Witness for C1: a response with status 200 and body `"Pong!"` has its
header count encoded as the `-1` sentinel. -/
theorem buildResponsePayload_always_writes_minus_one_witness :
    buildResponsePayload "QUFBQQ==" 200 (strBytes "Pong!") =
      .ok ([65, 65, 65, 65] ++ writeVarIntNum 200 ++ writeVarIntNum (-1) ++
        bodySection (strBytes "Pong!")) :=
  buildResponsePayload_always_writes_minus_one "QUFBQQ==" 200 (strBytes "Pong!")
    [65, 65, 65, 65] (by decide)

/-- C2: in the sample authenticated general exchange, the
`x-bsv-auth-nonce` header emitted with the response carries the nonce
created in `handleGeneralRequest` (`"AQAA"`), while `HandleResponse`
signed the response payload under a second fresh nonce (`"AgAA"`): the
key ID recovered from the transmitted signature is `"AgAA QUFB"`, not
`emitted nonce ‖ peer nonce`, so the transmitted signature is not
verifiable from the transmitted headers. -/
theorem handleResponse_signing_nonce_differs_from_header :
    headerGet emittedHeaders nonceHeaderName = "AQAA" ∧
    emittedSignatureKeyID = .ok "AgAA QUFB" ∧
    ("AgAA QUFB" : String) ≠ "AQAA" ++ " " ++ "QUFB" := by decide

/-- C3: contrary to the claim, `handleInitialRequest` accepts an initial
request whose `initialNonce` is empty (the source requires the identity
key AND the nonce to be empty before rejecting), returning an
`initialResponse` and creating a session whose `peerNonce` is the empty
string. -/
theorem handleInitialRequest_accepts_empty_initial_nonce :
    emptyNonceOutcome.1.isOk = true ∧
    emptyNonceOutcome.2.sessions.map (fun s => s.peerNonce) = [some ""] ∧
    emptyNonceOutcome.2.sessions.map (fun s => s.peerIdentityKey) =
      [some validClientKey] := by decide

/-- C9: an inbound message of any type whose version differs from `"0.1"`
is rejected by `handleIncomingMessage` before any message-type dispatch,
with the state unchanged: no session is created or mutated and no wallet
operation runs. -/
theorem handleIncomingMessage_rejects_bad_version (cfg : Cfg) (st : TState)
    (msg : AuthMessage) (cb : Bool) (h : msg.version ≠ AuthVersion) :
    handleIncomingMessage cfg st msg cb = (.error "unsupported version", st) := by
  unfold handleIncomingMessage
  rw [if_pos h]

/-- Witness for C9: a general message with version `"0.2"` is rejected and
the state is untouched. -/
theorem handleIncomingMessage_rejects_bad_version_witness :
    handleIncomingMessage cfgNoCerts stAfterHandshake
      { sampleGeneralMsg with version := "0.2" } false =
      (.error "unsupported version", stAfterHandshake) :=
  handleIncomingMessage_rejects_bad_version cfgNoCerts stAfterHandshake
    { sampleGeneralMsg with version := "0.2" } false (by decide)

/-- C10: after any sequence of `Write` calls by the downstream handler, the
recorder retains only the bytes of the last call, and `HandleResponse`
(which the middleware invokes on `recorder.body`, the same value it then
flushes) therefore signs over exactly those last-written bytes. -/
theorem recorder_keeps_last_write (status : Int) (writes : List (List Nat))
    (h : writes ≠ []) (cfg : Cfg) (st : TState) (ctx : Option (String × String))
    (msg : Option AuthMessage) :
    (recorderAfter status writes).body = writes.getLast h ∧
    HandleResponse cfg st ctx (recorderAfter status writes).body status msg =
      HandleResponse cfg st ctx (writes.getLast h) status msg := by
  have hbody : ∀ (r : ResponseRecorder) (ws : List (List Nat)) (hw : ws ≠ []),
      (ws.foldl recorderWrite r).body = ws.getLast hw := by
    intro r ws
    induction ws generalizing r with
    | nil => intro hw; exact absurd rfl hw
    | cons a t ih =>
        intro hw
        cases t with
        | nil => simp [recorderWrite]
        | cons b t2 =>
            rw [List.getLast_cons (by simp)]
            exact ih (recorderWrite r a) (by simp)
  refine ⟨hbody _ writes h, ?_⟩
  rw [recorderAfter, hbody _ writes h]

/-- Witness for C10: two writes leave only the second one in the recorder
and in the bytes handed to `HandleResponse`. -/
theorem recorder_keeps_last_write_witness :
    (recorderAfter 200 [[1, 2], [3]]).body = [3] ∧
    HandleResponse cfgNoCerts emptyTState none (recorderAfter 200 [[1, 2], [3]]).body
      200 none = HandleResponse cfgNoCerts emptyTState none [3] 200 none :=
  recorder_keeps_last_write 200 [[1, 2], [3]] (by decide) cfgNoCerts emptyTState
    none none

/-- C8: `normalizeCounterparty` maps `self` to the deriver's own root
public key, `anyone` to the public key of private scalar 1, `other` to the
supplied key (error when it is absent), and `uninitialized` — like every
other type value — to an error. -/
theorem normalizeCounterparty_matches_claim (kd : KeyDeriver) (k : PubKey)
    (cp : Counterparty) :
    anyoneKeyScalar = 1 ∧
    normalizeCounterparty kd ⟨counterpartyTypeSelf, cp.counterparty⟩ =
      .ok (pubKeyOf kd.rootKey) ∧
    normalizeCounterparty kd ⟨counterpartyTypeAnyone, cp.counterparty⟩ =
      .ok (pubKeyOf anyoneKeyScalar) ∧
    normalizeCounterparty kd ⟨counterpartyTypeOther, some k⟩ = .ok k ∧
    (normalizeCounterparty kd ⟨counterpartyTypeOther, none⟩).isOk = false ∧
    (normalizeCounterparty kd ⟨counterpartyUninitialized, cp.counterparty⟩).isOk = false ∧
    (cp.type ≠ counterpartyTypeSelf → cp.type ≠ counterpartyTypeAnyone →
      cp.type ≠ counterpartyTypeOther → (normalizeCounterparty kd cp).isOk = false) := by
  refine ⟨rfl, by simp [normalizeCounterparty, counterpartyTypeSelf, counterpartyTypeOther,
    counterpartyTypeAnyone, counterpartyUninitialized],
    by simp [normalizeCounterparty, counterpartyTypeSelf, counterpartyTypeOther,
      counterpartyTypeAnyone, counterpartyUninitialized],
    by simp [normalizeCounterparty, counterpartyTypeSelf, counterpartyTypeOther,
      counterpartyTypeAnyone, counterpartyUninitialized],
    by simp [normalizeCounterparty, counterpartyTypeSelf, counterpartyTypeOther,
      counterpartyTypeAnyone, counterpartyUninitialized, Except.isOk, Except.toBool],
    by simp [normalizeCounterparty, counterpartyTypeSelf, counterpartyTypeOther,
      counterpartyTypeAnyone, counterpartyUninitialized, Except.isOk, Except.toBool],
    ?_⟩
  intro h2 h1 h3
  unfold normalizeCounterparty
  rw [if_neg h2, if_neg h3, if_neg h1]
  by_cases h0 : cp.type = counterpartyUninitialized
  · rw [if_pos h0]; rfl
  · rw [if_neg h0]; rfl

/-- Witness for C8: the four counterparty kinds evaluated at a concrete
deriver with root scalar 7. -/
theorem normalizeCounterparty_matches_claim_witness :
    normalizeCounterparty ⟨7⟩ ⟨counterpartyTypeSelf, none⟩ = .ok (pubKeyOf 7) ∧
    (normalizeCounterparty ⟨7⟩ ⟨5, none⟩).isOk = false :=
  ⟨(normalizeCounterparty_matches_claim ⟨7⟩ (pubKeyOf 3) ⟨5, none⟩).2.1,
    (normalizeCounterparty_matches_claim ⟨7⟩ (pubKeyOf 3) ⟨5, none⟩).2.2.2.2.2.2
      (by decide) (by decide) (by decide)⟩

/-- An empty character list gives byte length zero. -/
theorem byteLen_of_isEmpty (s : String) (hs : s.toList.isEmpty = true) :
    byteLen s = 0 := by
  unfold byteLen strBytes
  rw [List.isEmpty_iff] at hs
  rw [hs]
  rfl

set_option maxHeartbeats 1000000

/-- C7: `computeInvoiceNumber` succeeds exactly when the claim's validation
constraints hold (security level in 0..2, key ID length 1..800, normalised
name length 5..400 — 430 with the linkage-revelation prefix — no doubled
spaces, only lowercase letters, digits and spaces, no `" protocol"`
suffix — stated over the source constraint order), and on success returns
`"{securityLevel}-{normalisedProtocolName}-{keyID}"`. -/
theorem computeInvoiceNumber_matches_claim (p : Protocol) (keyID : String) :
    ((computeInvoiceNumber p keyID).isOk = invoiceConstraintsOK p keyID) ∧
    (invoiceConstraintsOK p keyID = true →
      computeInvoiceNumber p keyID = .ok (invoiceFormat p keyID)) := by
  have honlySplit : ∀ s : String, onlyLettersNumbersSpaces s = true ↔
      (s.toList.isEmpty = false ∧ s.toList.all isLowerAlnumSpace = true) := by
    intro s
    unfold onlyLettersNumbersSpaces
    cases s.toList.isEmpty <;> simp
  have hforward : ∀ s : String, computeInvoiceNumber p keyID = .ok s →
      invoiceConstraintsOK p keyID = true := by
    intro s hs
    unfold computeInvoiceNumber invoiceNameChecks at hs
    unfold invoiceConstraintsOK
    simp only [Bool.and_eq_true, decide_eq_true_eq, Bool.not_eq_true]
    split_ifs at hs with h1 h2 h3 h4 h5 h6 h7 h8 h9 h10 h11 h12 h13 h14
    · refine ⟨⟨⟨⟨⟨⟨by omega, by omega⟩, by omega⟩, ?_⟩, by simpa using h8⟩,
        ((honlySplit _).mp (by simpa using h9)).2⟩, by simpa using h10⟩
      rw [if_pos h5]
      simp only [decide_eq_true_eq]
      omega
    · refine ⟨⟨⟨⟨⟨⟨by omega, by omega⟩, by omega⟩, ?_⟩, by simpa using h12⟩,
        ((honlySplit _).mp (by simpa using h13)).2⟩, by simpa using h14⟩
      split_ifs <;> simp only [decide_eq_true_eq] <;> omega
  have hback : invoiceConstraintsOK p keyID = true →
      computeInvoiceNumber p keyID = .ok (invoiceFormat p keyID) := by
    intro hok
    unfold invoiceConstraintsOK at hok
    unfold computeInvoiceNumber invoiceNameChecks invoiceFormat
    simp only [Bool.and_eq_true, decide_eq_true_eq, Bool.not_eq_true] at hok
    obtain ⟨⟨⟨⟨⟨⟨hsl, hkey⟩, hlen5⟩, hlenHi⟩, hds⟩, hall⟩, hsuf⟩ := hok
    have hne : (normalizedName p).toList.isEmpty = false := by
      cases hcase : (normalizedName p).toList.isEmpty
      · rfl
      · exact absurd (byteLen_of_isEmpty (normalizedName p) hcase) (by omega)
    have honly : onlyLettersNumbersSpaces (normalizedName p) = true :=
      (honlySplit _).mpr ⟨hne, hall⟩
    have htail : invoiceNameChecks p.securityLevel keyID (normalizedName p) =
        .ok (intDecString p.securityLevel ++ "-" ++ normalizedName p ++ "-" ++ keyID) := by
      have hds2 : hasDoubleSpace (normalizedName p) = false := by simpa using hds
      have hsuf2 : strEndsWith (normalizedName p) " protocol" = false := by simpa using hsuf
      unfold invoiceNameChecks
      rw [if_neg (by omega), if_neg (by simp [hds2]), if_neg (by simp [honly]),
        if_neg (by simp [hsuf2])]
    rw [if_neg (by omega), if_neg (by omega), if_neg (by omega)]
    by_cases hpre : strStartsWith (normalizedName p) "specific linkage revelation " = true
    · rw [if_pos hpre] at hlenHi
      simp only [decide_eq_true_eq] at hlenHi
      by_cases h400 : byteLen (normalizedName p) > 400
      · rw [if_pos h400, if_pos hpre, if_neg (by omega)]
        exact htail
      · rw [if_neg h400]
        exact htail
    · rw [if_neg hpre] at hlenHi
      simp only [decide_eq_true_eq] at hlenHi
      rw [if_neg (by omega)]
      exact htail
  refine ⟨?_, hback⟩
  cases hc : invoiceConstraintsOK p keyID
  · cases hcode : computeInvoiceNumber p keyID with
    | ok v => exact absurd (hforward v hcode) (by simp [hc])
    | error e => rfl
  · rw [hback hc]
    rfl

/-- Witness for C7: a valid protocol and key ID produce the formatted
invoice number. -/
theorem computeInvoiceNumber_matches_claim_witness :
    computeInvoiceNumber ⟨2, "auth message signature"⟩ "mykey" =
      .ok "2-auth message signature-mykey" := by
  have h := (computeInvoiceNumber_matches_claim ⟨2, "auth message signature"⟩
    "mykey").2 (by decide)
  rw [show invoiceFormat ⟨2, "auth message signature"⟩ "mykey" =
    "2-auth message signature-mykey" from by decide] at h
  exact h

set_option maxHeartbeats 400000

/-- `HandleResponse` never touches the session store. -/
theorem handleResponse_sessions (cfg : Cfg) (st : TState)
    (ctx : Option (String × String)) (body : List Nat) (status : Int)
    (msg : Option AuthMessage) :
    (HandleResponse cfg st ctx body status msg).2.2.sessions = st.sessions := by
  unfold HandleResponse
  repeat first | rfl | split | dsimp only

/-- The post-state of `handleInitialRequest`: either unchanged or with one
session appended whose authentication flag is
`certificateRequirements.isNone`. -/
theorem handleInitialRequest_sessionsChar (cfg : Cfg) (st : TState) (msg : AuthMessage) :
    (handleInitialRequest cfg st msg).2.sessions = st.sessions ∨
    (handleInitialRequest cfg st msg).2.sessions =
      addSession st.sessions
        ⟨cfg.certificateRequirements.isNone, some (modelNonce st.wallet.counter),
          some msg.initialNonce, some msg.identityKey, st.clock⟩ := by
  unfold handleInitialRequest
  split_ifs
  · exact Or.inl rfl
  · dsimp only [createNonce]
    split <;> exact Or.inr rfl

/-- With a configured callback whose continuation does not fire,
`handleCertificateResponse` leaves the session store unchanged. -/
theorem handleCertificateResponse_sessions (cfg : Cfg) (st : TState)
    (msg : AuthMessage) (hcb : cfg.hasCallback = true) :
    (handleCertificateResponse cfg st msg false).2.sessions = st.sessions := by
  unfold handleCertificateResponse
  simp only [hcb]
  repeat first | rfl | split | dsimp only

/-- Sessions after `handleGeneralRequest` keep their authentication flags
unset when they all started unset: the only mutation is a `lastUpdate`
touch of a stored session. -/
theorem handleGeneralRequest_sessions (cfg : Cfg) (st : TState) (msg : AuthMessage)
    (hst : ∀ s ∈ st.sessions, s.isAuthenticated = false)
    (s : PeerSession) (hs : s ∈ (handleGeneralRequest cfg st msg).2.sessions) :
    s.isAuthenticated = false := by
  unfold handleGeneralRequest at hs
  cases hyn : msg.yourNonce with
  | none => rw [hyn] at hs; exact hst s hs
  | some yn =>
  rw [hyn] at hs
  dsimp only at hs
  by_cases hv : (!verifyNonce st.wallet yn) = true
  case pos => rw [if_pos hv] at hs; exact hst s hs
  rw [if_neg hv] at hs
  cases hfind : getSession st.sessions yn with
  | none => rw [hfind] at hs; exact hst s hs
  | some session =>
  rw [hfind] at hs
  have hmem : session ∈ st.sessions := List.mem_of_find?_eq_some hfind
  dsimp only at hs
  by_cases hauth : (!session.isAuthenticated && !cfg.allowUnauthenticated) = true
  case pos =>
    rw [if_pos hauth] at hs
    by_cases hcr : cfg.certificateRequirements.isSome = true
    · rw [if_pos hcr] at hs; exact hst s hs
    · rw [if_neg hcr] at hs; exact hst s hs
  rw [if_neg hauth] at hs
  cases hsig : msg.signature with
  | none => rw [hsig] at hs; exact hst s hs
  | some sigBytes =>
  rw [hsig] at hs
  dsimp only at hs
  cases hp : sigParse sigBytes with
  | error e => rw [hp] at hs; exact hst s hs
  | ok sigTok =>
  rw [hp] at hs
  cases hpik : session.peerIdentityKey with
  | none => rw [hpik] at hs; exact hst s hs
  | some pik =>
  rw [hpik] at hs
  dsimp only at hs
  cases hkey : pubKeyFromString pik with
  | error e => rw [hkey] at hs; exact hst s hs
  | ok key =>
  rw [hkey] at hs
  cases hmn : msg.nonce with
  | none => rw [hmn] at hs; exact hst s hs
  | some mn =>
  rw [hmn] at hs
  dsimp only at hs
  cases hpl : msg.payload with
  | none => rw [hpl] at hs; exact hst s hs
  | some payload =>
  rw [hpl] at hs
  dsimp only at hs
  by_cases hvs : (!verifySigModel (mn ++ " " ++ yn) key payload sigTok) = true
  case pos => rw [if_pos hvs] at hs; exact hst s hs
  rw [if_neg hvs] at hs
  dsimp only at hs
  simp only [updateSession, List.mem_map] at hs
  obtain ⟨t, ht, hts⟩ := hs
  by_cases hcond :
      (t.sessionNonce ==
        ({ session with lastUpdate := st.clock } : PeerSession).sessionNonce) = true
  · rw [if_pos hcond] at hts
    rw [← hts]
    exact hst session hmem
  · rw [if_neg hcond] at hts
    rw [← hts]
    exact hst t ht

/-- One incoming message with an unfired continuation cannot authenticate
any session when certificates are required and a callback is configured. -/
theorem handleIncomingMessage_preserves_unauthenticated (cfg : Cfg) (st : TState)
    (msg : AuthMessage) (hreq : cfg.certificateRequirements.isSome = true)
    (hcb : cfg.hasCallback = true)
    (hst : ∀ s ∈ st.sessions, s.isAuthenticated = false) :
    ∀ s ∈ (handleIncomingMessage cfg st msg false).2.sessions,
      s.isAuthenticated = false := by
  intro s hs
  have hnone : cfg.certificateRequirements.isNone = false := by
    cases hcr : cfg.certificateRequirements
    · rw [hcr] at hreq; simp at hreq
    · rfl
  unfold handleIncomingMessage at hs
  split_ifs at hs with h1 h2 h3 h4 h5
  · exact hst s hs
  · rcases handleInitialRequest_sessionsChar cfg st msg with h | h <;> rw [h] at hs
    · exact hst s hs
    · simp only [addSession, List.mem_append, List.mem_singleton] at hs
      rcases hs with h | h
      · exact hst s h
      · rw [h, hnone]
  · rw [handleCertificateResponse_sessions cfg st msg hcb] at hs
    exact hst s hs
  · exact hst s hs
  · exact handleGeneralRequest_sessions cfg st msg hst s hs
  · exact hst s hs

/-- Induction over operation sequences for the C4 invariant. -/
theorem runOps_preserves_unauthenticated (cfg : Cfg)
    (hreq : cfg.certificateRequirements.isSome = true)
    (hcb : cfg.hasCallback = true) :
    ∀ (ops : List TOp) (st : TState), (∀ op ∈ ops, op.callbackFired = false) →
      (∀ s ∈ st.sessions, s.isAuthenticated = false) →
      ∀ s ∈ (runOps cfg st ops).sessions, s.isAuthenticated = false := by
  intro ops
  induction ops with
  | nil => intro st _ hst; simpa [runOps] using hst
  | cons op t ih =>
    intro st hops hst
    have hstep : ∀ s ∈ (applyOp cfg st op).sessions, s.isAuthenticated = false := by
      cases op with
      | incoming msg cb =>
        have hcbf : cb = false := by
          simpa [TOp.callbackFired] using hops (.incoming msg cb) (by simp)
        rw [applyOp, hcbf]
        exact handleIncomingMessage_preserves_unauthenticated cfg st msg hreq hcb hst
      | respond ctx body status msg =>
        intro s hs
        rw [applyOp, handleResponse_sessions] at hs
        exact hst s hs
    have hrest := ih (applyOp cfg st op)
      (fun o ho => hops o (by simp [ho])) hstep
    simpa [runOps, List.foldl_cons] using hrest

/-- A certificate response that fails any verification gate leaves the
session store unchanged: every state change of
`handleCertificateResponse` sits behind the gates that
`certResponseVerified` records. -/
theorem handleCertificateResponse_sessions_unverified (cfg : Cfg) (st : TState)
    (msg : AuthMessage) (cb : Bool) (hver : msg.version = AuthVersion)
    (hmt : msg.messageType = "certificateResponse")
    (hv : certResponseVerified st msg = false) :
    (handleCertificateResponse cfg st msg cb).2.sessions = st.sessions := by
  unfold handleCertificateResponse
  cases hyn : msg.yourNonce with
  | none => rfl
  | some yn =>
  dsimp only
  by_cases hvn : (!verifyNonce st.wallet yn) = true
  case pos => rw [if_pos hvn]
  rw [if_neg hvn]
  cases hcerts : msg.certificates with
  | none => rfl
  | some certs =>
  dsimp only
  cases hmn : msg.nonce with
  | none => rfl
  | some mn =>
  dsimp only
  cases hfind : getSession st.sessions msg.identityKey with
  | none => rfl
  | some session =>
  dsimp only
  cases hpik : session.peerIdentityKey with
  | none => rfl
  | some pik =>
  dsimp only
  cases hsig : msg.signature with
  | none => rfl
  | some sigBytes =>
  dsimp only
  cases hp : sigParse sigBytes with
  | error e => rfl
  | ok sigTok =>
  dsimp only
  cases hk : pubKeyFromString pik with
  | error e => rfl
  | ok key =>
  dsimp only
  by_cases hvs : (!verifySigModel (mn ++ " " ++ yn) key (certsBytes certs) sigTok) = true
  case pos => rw [if_pos hvs]
  rw [if_neg hvs]
  exfalso
  have h1 : verifyNonce st.wallet yn = true := by simpa using hvn
  have h2 : verifySigModel (mn ++ " " ++ yn) key (certsBytes certs) sigTok = true := by
    simpa using hvs
  have htrue : certResponseVerified st msg = true := by
    unfold certResponseVerified
    simp [hver, hmt, hyn, hcerts, hmn, hfind, hpik, hsig, hp, hk, h1, h2]
  rw [hv] at htrue
  exact Bool.false_ne_true htrue

/-- With a certificate requirement configured, the only transport
operation that can take an all-unauthenticated session store to one
holding an authenticated session is an inbound, fully verified
`certificateResponse`. -/
theorem newly_authenticated_step (cfg : Cfg) (st : TState) (op : TOp)
    (s : PeerSession) (hreq : cfg.certificateRequirements.isSome = true)
    (hst : ∀ t ∈ st.sessions, t.isAuthenticated = false)
    (hs : s ∈ (applyOp cfg st op).sessions) (hsa : s.isAuthenticated = true) :
    ∃ msg cb, op = .incoming msg cb ∧ certResponseVerified st msg = true := by
  cases op with
  | respond ctx body status msg =>
    rw [applyOp, handleResponse_sessions] at hs
    rw [hst s hs] at hsa
    exact absurd hsa (by simp)
  | incoming msg cb =>
    refine ⟨msg, cb, rfl, ?_⟩
    rw [applyOp] at hs
    unfold handleIncomingMessage at hs
    split_ifs at hs with h1 h2 h3 h4 h5
    · rw [hst s hs] at hsa; exact absurd hsa (by simp)
    · rcases handleInitialRequest_sessionsChar cfg st msg with h | h <;> rw [h] at hs
      · rw [hst s hs] at hsa; exact absurd hsa (by simp)
      · simp only [addSession, List.mem_append, List.mem_singleton] at hs
        rcases hs with h | h
        · rw [hst s h] at hsa; exact absurd hsa (by simp)
        · rw [h] at hsa
          cases hcr : cfg.certificateRequirements with
          | none => rw [hcr] at hreq; exact absurd hreq (by simp)
          | some r => rw [hcr] at hsa; exact absurd hsa (by simp)
    · by_cases hv : certResponseVerified st msg = true
      · exact hv
      · rw [handleCertificateResponse_sessions_unverified cfg st msg cb
          (not_not.mp h1) h3 (by simpa using hv)] at hs
        rw [hst s hs] at hsa
        exact absurd hsa (by simp)
    · rw [hst s hs] at hsa; exact absurd hsa (by simp)
    · rw [handleGeneralRequest_sessions cfg st msg hst s hs] at hsa
      exact absurd hsa (by simp)
    · rw [hst s hs] at hsa; exact absurd hsa (by simp)

/-- C4 counterexample: with a certificate requirement configured but no
`onCertificatesReceived` callback, a verified certificate response flips
`isAuthenticated` to true although no continuation was (or could have
been) invoked — the claimed invariant does not hold as stated. -/
theorem session_authenticated_without_callback :
    certNoCallbackFinal.sessions.map (fun s => s.isAuthenticated) = [true] ∧
    cfgCertsNoCallback.certificateRequirements ≠ none ∧
    cfgCertsNoCallback.hasCallback = false := by decide

/-- C4 (amended): with a certificate requirement configured, a stored
session is authenticated only as the invariant's amended disjunction
allows.  First conjunct — case (c): when a callback is also configured
and its continuation never fires across a run of transport operations,
every session stays unauthenticated, so authentication requires the
continuation.  Second conjunct — covering case (b) in particular: the
only single operation that takes an all-unauthenticated store to one
holding an authenticated session is an inbound certificate response that
passed every verification gate of `handleCertificateResponse` (version,
message type, self-issued `yourNonce`, stored session for the sender, and
a signature verifying over the marshalled certificates under the peer's
identity key) — so with no callback configured, authentication happens
only through such a verified certificate response.  (Case (a),
requirement absent, authenticates at session creation and is outside
these hypotheses.) -/
theorem authenticated_only_as_amended (cfg : Cfg)
    (hreq : cfg.certificateRequirements.isSome = true) :
    (∀ (st : TState) (ops : List TOp), cfg.hasCallback = true →
      (∀ op ∈ ops, op.callbackFired = false) →
      (∀ s ∈ st.sessions, s.isAuthenticated = false) →
      ∀ s ∈ (runOps cfg st ops).sessions, s.isAuthenticated = false) ∧
    (∀ (st : TState) (op : TOp) (s : PeerSession),
      (∀ t ∈ st.sessions, t.isAuthenticated = false) →
      s ∈ (applyOp cfg st op).sessions → s.isAuthenticated = true →
      ∃ msg cb, op = .incoming msg cb ∧ certResponseVerified st msg = true) := by
  constructor
  · intro st ops hcb hops hst
    exact runOps_preserves_unauthenticated cfg hreq hcb ops st hops hst
  · intro st op s hst hs hsa
    exact newly_authenticated_step cfg st op s hreq hst hs hsa

/-- Witness for C4 (amended): a declined-continuation run leaves every
session unauthenticated, and the no-callback step that did authenticate a
session is certified as a fully verified certificate response. -/
theorem authenticated_only_as_amended_witness :
    ((runOps cfgCertsWithCallback emptyTState certCallbackDeclinedOps).sessions.all
      (fun s => !s.isAuthenticated)) = true ∧
    certResponseVerified stCertNoCallbackHandshake sampleCertMsg = true := by
  constructor
  · have h := (authenticated_only_as_amended cfgCertsWithCallback (by decide)).1
      emptyTState certCallbackDeclinedOps (by decide) (by decide) (by decide)
    simp only [List.all_eq_true]
    intro s hs
    simp [h s hs]
  · have h := (authenticated_only_as_amended cfgCertsNoCallback (by decide)).2
      stCertNoCallbackHandshake (.incoming sampleCertMsg false) certUpdatedSession
      (by decide) (by decide) (by decide)
    obtain ⟨msg, cb, heq, hv⟩ := h
    injection heq with e1 e2
    subst e1
    exact hv

/-- C5 counterexample: a general request carrying a request ID but missing
the version header (a malformed-headers case the claim lists) is surfaced
by the middleware as HTTP 401, not 400. -/
theorem malformed_headers_yield_401_not_400 :
    (middlewareHandle cfgNoCerts emptyTState reqMissingVersion false pongNext).1 = 401 ∧
    (401 : Int) ≠ 400 := by decide

/-- C5 (amended): every malformed-header failure detected by
`checkHeaders` on a general request (missing version, identity-key, nonce,
your-nonce or signature header, non-base64 nonce values, non-hex
signature) is surfaced to the client as HTTP 401 (Unauthorized): the
middleware maps every general-path transport error to
`http.StatusUnauthorized`. -/
theorem malformed_headers_surface_unauthorized (cfg : Cfg) (st : TState)
    (req : HttpRequest) (cb : Bool) (next : HttpRequest → Int × List (List Nat))
    (e : String) (hpath : ¬(req.method = "POST" ∧ req.path = "/.well-known/auth"))
    (hid : headerGet req.headers requestIDHeaderName ≠ "")
    (hch : checkHeaders req = .error e) :
    (middlewareHandle cfg st req cb next).1 = 401 := by
  have hg : HandleGeneralRequest cfg st req cb = (.error e, st) := by
    simp only [HandleGeneralRequest]
    rw [if_neg hid, hch]
  unfold middlewareHandle
  rw [if_neg hpath, hg]

/-- Witness for C5 (amended): the request without a version header gets
HTTP 401. -/
theorem malformed_headers_surface_unauthorized_witness :
    (middlewareHandle cfgNoCerts emptyTState reqMissingVersion false pongNext).1 = 401 :=
  malformed_headers_surface_unauthorized cfgNoCerts emptyTState reqMissingVersion
    false pongNext "missing version header" (by decide) (by decide) (by decide)

/-- C6 counterexample: in allow-unauthenticated mode a general request
that does carry `x-bsv-auth-request-id` is still processed by the state
machine, but its response is NOT signed: `HandleResponse` returns
immediately, emitting no headers at all — in particular no
`x-bsv-auth-signature`. -/
theorem handleResponse_skips_signing_when_allow_unauthenticated :
    allowUnauthGeneralOutcome.1.isOk = true ∧
    HandleResponse cfgAllowUnauth allowUnauthGeneralOutcome.2
      (some (validClientKey, "QUFB")) (strBytes "Pong!") 200
      (some (extractMsg allowUnauthGeneralOutcome.1)) =
      (.ok (), [], allowUnauthGeneralOutcome.2) ∧
    headerGet [] signatureHeaderName = "" := by decide

/-- C6 (amended): when `allowUnauthenticated` is set, exactly the general
requests missing `x-bsv-auth-request-id` bypass the state machine
(`HandleGeneralRequest` yields neither context nor message exactly for
them), and `HandleResponse` skips signing for EVERY request — no response
headers are emitted, whether or not the request carried a request ID. -/
theorem allow_unauthenticated_bypass_iff_missing_request_id (cfg : Cfg)
    (st : TState) (req : HttpRequest) (cb : Bool) (ctx : Option (String × String))
    (body : List Nat) (status : Int) (msg : Option AuthMessage)
    (hau : cfg.allowUnauthenticated = true) :
    ((HandleGeneralRequest cfg st req cb).1 = .ok (none, none) ↔
      headerGet req.headers requestIDHeaderName = "") ∧
    HandleResponse cfg st ctx body status msg = (.ok (), [], st) := by
  constructor
  · constructor
    · intro h
      by_contra hid
      simp only [HandleGeneralRequest] at h
      rw [if_neg hid] at h
      cases hch : checkHeaders req with
      | error e => rw [hch] at h; simp at h
      | ok u =>
        rw [hch] at h
        cases hb : buildAuthMessageFromRequest req with
        | error e => rw [hb] at h; simp at h
        | ok rd =>
          rw [hb] at h
          dsimp only at h
          rcases hhi : handleIncomingMessage cfg st rd cb with ⟨r, st1⟩
          rw [hhi] at h
          cases r with
          | error e => simp at h
          | ok resp => simp at h
    · intro h
      simp [HandleGeneralRequest, h, hau]
  · simp [HandleResponse, hau]

/-- Witness for C6 (amended): with the flag set, `HandleResponse` writes
nothing, and a request carrying a request ID does not take the bypass. -/
theorem allow_unauthenticated_bypass_iff_missing_request_id_witness :
    HandleResponse cfgAllowUnauth emptyTState none [] 200 none =
      (.ok (), [], emptyTState) ∧
    (HandleGeneralRequest cfgAllowUnauth emptyTState reqMissingVersion false).1 ≠
      .ok (none, none) := by
  refine ⟨(allow_unauthenticated_bypass_iff_missing_request_id cfgAllowUnauth
    emptyTState reqMissingVersion false none [] 200 none rfl).2, ?_⟩
  intro hbypass
  have h := (allow_unauthenticated_bypass_iff_missing_request_id cfgAllowUnauth
    emptyTState reqMissingVersion false none [] 200 none rfl).1.mp hbypass
  exact absurd h (by decide)

end BsvAuth
